import Mathlib

/-!
Shallow embedding of the ALDR bot (monitor.py / send_manual.py).

Rows of the fetched TSV sheet are lists of strings.  Victor sets are
finite sets of strings.  Python dicts, which preserve insertion order,
are modelled as association lists together with an in-place update
operation `dictUpdate` mirroring dict assignment (replace the existing
entry in place, otherwise append).  Numeric difficulties are modelled as
rationals built with `mkRat`.  The Python string primitives `.strip()`,
`.lower()`, `.split(',')` and `sorted(...)` are modelled directly on
character lists so that every definition evaluates inside the kernel.
-/

/-- First-`some` choice on options (Python dict-override composition). -/
def oor {α : Type} : Option α → Option α → Option α
  | some x, _ => some x
  | none, b => b

/-- Lookup in an association list, first match wins (Python `dict.get`). -/
def pvGet {α : Type} : List (String × α) → String → Option α
  | [], _ => none
  | (k0, v) :: t, k => if k0 = k then some v else pvGet t k

/-- Python dict assignment `d[k] = v`: replace the entry for `k` in place
if present, otherwise append a fresh entry at the end. -/
def dictUpdate {α : Type} : List (String × α) → String → α → List (String × α)
  | [], k, v => [(k, v)]
  | (k0, v0) :: t, k, v =>
      if k0 = k then (k, v) :: t else (k0, v0) :: dictUpdate t k v

/-- Apply a sequence of dict assignments in order. -/
def dictFold {α : Type} (d0 : List (String × α)) (l : List (String × α)) :
    List (String × α) :=
  l.foldl (fun d p => dictUpdate d p.1 p.2) d0

/-- Value of the last entry of `l` whose key is `k`, if any. -/
def lastOf {α : Type} : List (String × α) → String → Option α
  | [], _ => none
  | p :: t, k => oor (lastOf t k) (if p.1 = k then some p.2 else none)

/-- Python `str.strip()`: drop whitespace from both ends. -/
def strTrim (s : String) : String :=
  ⟨((s.data.dropWhile Char.isWhitespace).reverse.dropWhile
      Char.isWhitespace).reverse⟩

/-- Python `str.lower()`: lowercase every character. -/
def strToLower (s : String) : String :=
  ⟨s.data.map Char.toLower⟩

/-- Helper for `splitComma`, carrying the current field reversed. -/
def splitCommaAux : List Char → List Char → List String
  | [], acc => [⟨acc.reverse⟩]
  | c :: t, acc =>
      if c = ',' then ⟨acc.reverse⟩ :: splitCommaAux t []
      else splitCommaAux t (c :: acc)

/-- Python `str.split(',')`: the empty string yields `[""]`. -/
def splitComma (s : String) : List String := splitCommaAux s.data []

/-- String order decided on the underlying character lists (Python
compares strings by code points, which is exactly this order). -/
def decDataLe : DecidableRel (fun a b : String => a ≤ b) := fun a b =>
  decidable_of_iff (a.toList ≤ b.toList) String.le_iff_toList_le.symm

/-- Sort a list of strings ascending (Python `sorted`). -/
def insSortStr (l : List String) : List String :=
  @List.insertionSort String (fun a b => a ≤ b) decDataLe l

theorem insSortStr_eq (l : List String) :
    insSortStr l = List.insertionSort (fun a b => a ≤ b) l := by
  unfold insSortStr
  congr 1

theorem insSortStr_perm (l : List String) : List.Perm (insSortStr l) l := by
  rw [insSortStr_eq]; exact List.perm_insertionSort _ l

theorem insSortStr_sorted (l : List String) :
    List.Sorted (· ≤ ·) (insSortStr l) := by
  rw [insSortStr_eq]; exact List.sorted_insertionSort _ l

/-- Canonical sorted enumeration of a multiset of strings. -/
def sortMS (m : Multiset String) : List String :=
  Quotient.liftOn m insSortStr (fun l1 l2 h =>
    List.eq_of_perm_of_sorted
      ((insSortStr_perm l1).trans (h.trans (insSortStr_perm l2).symm))
      (insSortStr_sorted l1) (insSortStr_sorted l2))

/-- `sorted(s)` for a set of strings: its elements in ascending order. -/
def sortFinset (s : Finset String) : List String := sortMS s.val

/-- A raw sheet row: an ordered list of text fields. -/
abbrev Row := List String

/-- `COLUMN_MAP` from monitor.py / send_manual.py (identical in both). -/
def COLUMN_MAP : List (String × Nat) :=
  [("ALDR_ID", 0), ("LEVEL_NAME", 1), ("CREATOR", 2), ("DIFFICULTY", 3),
   ("SKILLS_BALANCE", 4), ("LIST_POINTS", 5), ("PROJECT", 6), ("VIDEO", 7),
   ("NOTES", 8), ("LEVEL_CODE", 9), ("VICTORS", 10), ("IMPOSSIBLE", 11),
   ("CHALLENGE", 12), ("TRACKER_USERNAME", 22), ("DISCORD_ID", 24)]

/-- `while len(row) < len(COLUMN_MAP): row.append('')` — pad the row with
empty fields up to the number of mapped columns (15). -/
def padRow (r : Row) : Row :=
  r ++ List.replicate (COLUMN_MAP.length - r.length) ""

/-- `row[i].strip() if i < len(row) else ''` on the padded row (for the
indices used by the monitor this guard always holds after padding, and
for an out-of-range index the result is the empty string either way). -/
def col (r : Row) (i : Nat) : String :=
  strTrim ((padRow r).getD i "")

/-- Emoji token for the easy tier. -/
def easyEmoji : String := "<:easy:1464320027963424912>"

/-- Emoji token for the medium tier. -/
def mediumEmoji : String := "<:medium:1464320095034802289>"

/-- Emoji token for the hard tier. -/
def hardEmoji : String := "<:hard:1464320167571095766>"

/-- Emoji token for the harder tier. -/
def harderEmoji : String := "<:harder:1464320225075007632>"

/-- Emoji token for the insane tier. -/
def insaneEmoji : String := "<:insane:1464320293622386812>"

/-- Emoji token for the expert tier. -/
def expertEmoji : String := "<:expert:1464320350237102337>"

/-- Emoji token for the extreme tier. -/
def extremeEmoji : String := "<:extreme:1464320430658551838>"

/-- Emoji token for the madness tier. -/
def madnessEmoji : String := "<:madness:1464320499600462119>"

/-- Emoji token for the master tier. -/
def masterEmoji : String := "<:master:1464320549600755937>"

/-- Emoji token for the grandmaster tier. -/
def grandmasterEmoji : String := "<:grandmaster:1464320611038924874>"

/-- Emoji token for the gm1 tier. -/
def gm1Emoji : String := "<:gm1:1464320687953940543>"

/-- Emoji token for the gm2 tier. -/
def gm2Emoji : String := "<:gm2:1464320747613978748>"

/-- Emoji token for the tas tier. -/
def tasEmoji : String := "<:tas:1464320806162268222>"

/-- Emoji token for the tas1 tier. -/
def tas1Emoji : String := "<:tas1:1464320856275550414>"

/-- Emoji token for the tas2 tier. -/
def tas2Emoji : String := "<:tas2:1464320904061518007>"

/-- Emoji token for the effortless tier (send_manual.py only). -/
def effortlessEmoji : String := "<:effortless:1470940267782869188>"

/-- Value of a digit string read in base 10. -/
def digitsToNat (l : List Char) : Nat :=
  l.foldl (fun n c => n * 10 + (c.toNat - Char.toNat '0')) 0

/-- Model of the Python builtin `float(s)` on plain decimal literals:
optional surrounding whitespace, optional sign, an integer part and an
optional fractional part, at least one digit overall.  Exponents,
underscores, `inf` and `nan` are not modelled; on all other inputs the
result is `none`, matching the `ValueError` branch of the source. -/
def parseFloatQ (s : String) : Option ℚ :=
  let cs0 := (strTrim s).data
  let signed : Int × List Char :=
    match cs0 with
    | '-' :: t => (-1, t)
    | '+' :: t => (1, t)
    | _ => (1, cs0)
  let sign := signed.1
  let cs := signed.2
  let intPart := cs.takeWhile Char.isDigit
  let rest := cs.dropWhile Char.isDigit
  match rest with
  | [] =>
      if intPart ≠ [] then some (mkRat (sign * digitsToNat intPart) 1)
      else none
  | '.' :: fr =>
      if fr.all Char.isDigit ∧ (intPart ≠ [] ∨ fr ≠ []) then
        some (mkRat
          (sign * (digitsToNat intPart * 10 ^ fr.length + digitsToNat fr))
          (10 ^ fr.length))
      else none
  | _ => none

namespace Monitor

/-- `DIFFICULTY_EMOJI_MAP` of monitor.py (15 named tiers). -/
def DIFFICULTY_EMOJI_MAP : List (String × String) :=
  [("easy", easyEmoji), ("medium", mediumEmoji), ("hard", hardEmoji),
   ("harder", harderEmoji), ("insane", insaneEmoji), ("expert", expertEmoji),
   ("extreme", extremeEmoji), ("madness", madnessEmoji),
   ("master", masterEmoji), ("grandmaster", grandmasterEmoji),
   ("gm1", gm1Emoji), ("gm2", gm2Emoji), ("tas", tasEmoji),
   ("tas1", tas1Emoji), ("tas2", tas2Emoji)]

/-- The numeric if-chain of monitor.py's `get_difficulty_emoji`:
boundaries 1.5, 2.5, ..., 9.5 (written `mkRat 3 2`, ...), strict `<`. -/
def numericEmoji (q : ℚ) : String :=
  if q < mkRat 3 2 then easyEmoji
  else if q < mkRat 5 2 then mediumEmoji
  else if q < mkRat 7 2 then hardEmoji
  else if q < mkRat 9 2 then harderEmoji
  else if q < mkRat 11 2 then insaneEmoji
  else if q < mkRat 13 2 then expertEmoji
  else if q < mkRat 15 2 then extremeEmoji
  else if q < mkRat 17 2 then madnessEmoji
  else if q < mkRat 19 2 then masterEmoji
  else grandmasterEmoji

/-- monitor.py `get_difficulty_emoji`: normalize (strip + lowercase),
named-tier lookup, numeric parse with threshold bands, and on parse
failure return the normalized string itself. -/
def get_difficulty_emoji (difficulty_str : String) : String :=
  let d := strToLower (strTrim difficulty_str)
  match pvGet DIFFICULTY_EMOJI_MAP d with
  | some e => e
  | none =>
      match parseFloatQ d with
      | some q => numericEmoji q
      | none => d

end Monitor

namespace SendManual

/-- `DIFFICULTY_EMOJI_MAP` of send_manual.py (adds the effortless tier). -/
def DIFFICULTY_EMOJI_MAP : List (String × String) :=
  [("effortless", effortlessEmoji), ("easy", easyEmoji),
   ("medium", mediumEmoji), ("hard", hardEmoji), ("harder", harderEmoji),
   ("insane", insaneEmoji), ("expert", expertEmoji),
   ("extreme", extremeEmoji), ("madness", madnessEmoji),
   ("master", masterEmoji), ("grandmaster", grandmasterEmoji),
   ("gm1", gm1Emoji), ("gm2", gm2Emoji), ("tas", tasEmoji),
   ("tas1", tas1Emoji), ("tas2", tas2Emoji)]

/-- The numeric if-chain of send_manual.py's `get_difficulty_emoji`:
integer boundaries 1.0, 2.0, ..., 15.0, strict `<`. -/
def numericEmoji (q : ℚ) : String :=
  if q < 1 then effortlessEmoji
  else if q < 2 then easyEmoji
  else if q < 3 then mediumEmoji
  else if q < 4 then hardEmoji
  else if q < 5 then harderEmoji
  else if q < 6 then insaneEmoji
  else if q < 7 then expertEmoji
  else if q < 8 then extremeEmoji
  else if q < 9 then madnessEmoji
  else if q < 10 then masterEmoji
  else if q < 11 then grandmasterEmoji
  else if q < 12 then gm1Emoji
  else if q < 13 then gm2Emoji
  else if q < 14 then tasEmoji
  else if q < 15 then tas1Emoji
  else tas2Emoji

/-- send_manual.py `get_difficulty_emoji`. -/
def get_difficulty_emoji (difficulty_str : String) : String :=
  let d := strToLower (strTrim difficulty_str)
  match pvGet DIFFICULTY_EMOJI_MAP d with
  | some e => e
  | none =>
      match parseFloatQ d with
      | some q => numericEmoji q
      | none => d

end SendManual

/-- Spec-side tier selection (from the spec's words, for the refinement
comparison): walk an ordered list of ascending upper-bound thresholds,
the first threshold the value is strictly below wins, and a value at or
above every threshold maps to the top tier. -/
def specSelectTier : List (ℚ × String) → String → ℚ → String
  | [], top, _ => top
  | (b, t) :: rest, top, q =>
      if q < b then t else specSelectTier rest top q

/-- monitor.py's numeric threshold table as an ordered (bound, tier)
list: 1.5, 2.5, ..., 9.5 written as `mkRat 3 2`, ..., `mkRat 19 2`. -/
def monitorTierTable : List (ℚ × String) :=
  [(mkRat 3 2, easyEmoji), (mkRat 5 2, mediumEmoji), (mkRat 7 2, hardEmoji),
   (mkRat 9 2, harderEmoji), (mkRat 11 2, insaneEmoji),
   (mkRat 13 2, expertEmoji), (mkRat 15 2, extremeEmoji),
   (mkRat 17 2, madnessEmoji), (mkRat 19 2, masterEmoji)]

/-- A New-Achievement event: one `send_discord_message` call of
`check_for_changes` — the victor plus the row's display data. -/
structure Event where
  victor : String
  level_name : String
  creators : String
  difficulty : String
deriving DecidableEq, Repr

/-- The value stored in `current_victors_dict` for one level. -/
structure RowData where
  victors : Finset String
  level_name : String
  creators : String
  difficulty : String
deriving DecidableEq

/-- The module-level mutable state of monitor.py:
`previous_victors` (level id → set of victors) and `first_check_done`. -/
structure MonitorState where
  previous_victors : List (String × Finset String)
  first_check_done : Bool
deriving DecidableEq

namespace Monitor

/-- `set(v.strip() for v in victors_str.split(',') if v.strip())`. -/
def parseVictors (s : String) : Finset String :=
  (((splitComma s).map strTrim).filter (fun v => v ≠ "")).toFinset

/-- Field extraction of one data row of `check_for_changes`: skip the
row if the ALDR_ID field is empty, otherwise return the level id and
the parsed victor set together with the display fields. -/
def parseRow (r : Row) : Option (String × RowData) :=
  let level_id := col r 0
  if level_id = "" then none
  else some (level_id, ⟨parseVictors (col r 10), col r 1, col r 2, col r 3⟩)

/-- The new-victor set of one row, diffed against a given
`previous_victors` mapping (empty set default for unseen levels). -/
def rowNewVictors (pv : List (String × Finset String)) (r : Row) :
    Finset String :=
  match parseRow r with
  | none => ∅
  | some (k, dta) => dta.victors \ (pvGet pv k).getD ∅

/-- The notifications one row produces when the baseline is established:
one event per new victor, in sorted (lexicographic) order. -/
def rowEvents (pv : List (String × Finset String)) (r : Row) : List Event :=
  match parseRow r with
  | none => []
  | some (k, dta) =>
      (sortFinset (dta.victors \ (pvGet pv k).getD ∅)).map
        (fun v => Event.mk v dta.level_name dta.creators dta.difficulty)

/-- Concatenation of the per-row notifications, in row order. -/
def allRowEvents (pv : List (String × Finset String)) : List Row → List Event
  | [] => []
  | r :: t => rowEvents pv r ++ allRowEvents pv t

/-- The data-row loop of `check_for_changes`: builds
`current_victors_dict` by dict assignment and emits, per row, the sorted
new victors — but only `if new_victors and first_check_done`.  The diff
of every row is taken against the pre-poll `previous_victors`. -/
def checkLoop (pv : List (String × Finset String)) (fcd : Bool)
    (dict : List (String × RowData)) :
    List Row → List (String × RowData) × List Event
  | [] => (dict, [])
  | r :: rest =>
      match parseRow r with
      | none => checkLoop pv fcd dict rest
      | some (k, dta) =>
          let newV := dta.victors \ (pvGet pv k).getD ∅
          let evs :=
            if newV.Nonempty ∧ fcd = true then
              (sortFinset newV).map
                (fun v => Event.mk v dta.level_name dta.creators dta.difficulty)
            else []
          let res := checkLoop pv fcd (dictUpdate dict k dta) rest
          (res.1, evs ++ res.2)

/-- `for level_id, data_dict in current_victors_dict.items():
previous_victors[level_id] = data_dict['victors']`. -/
def updatePV (pv : List (String × Finset String))
    (cur : List (String × RowData)) : List (String × Finset String) :=
  cur.foldl (fun d p => dictUpdate d p.1 p.2.victors) pv

/-- One invocation of `check_for_changes`, with the fetch result passed
in (`none` models a failed `fetch_sheet_data`).  Returns the new state
and the list of notifications sent, in order.  `data[0]` is the header
row; `if not data or len(data) < 2` aborts with nothing changed; at the
end `previous_victors` is overwritten per snapshot entity and
`first_check_done` is set. -/
def check_for_changes (st : MonitorState) (data : Option (List Row)) :
    MonitorState × List Event :=
  match data with
  | none => (st, [])
  | some d =>
      if d.length < 2 then (st, [])
      else
        let res := checkLoop st.previous_victors st.first_check_done [] d.tail
        (⟨updatePV st.previous_victors res.1, true⟩, res.2)

/-- The Achiever Set a snapshot (list of data rows) observes for level
`k`: the parsed victor set of the last row whose id is `k`, if any. -/
def observedVictors (rows : List Row) (k : String) : Option (Finset String) :=
  (lastOf (rows.filterMap parseRow) k).map (fun dta => dta.victors)

end Monitor

/-! ### Generic lemmas about the dict model -/

theorem oor_assoc {α : Type} (a b c : Option α) :
    oor (oor a b) c = oor a (oor b c) := by
  cases a <;> simp [oor]

theorem oor_none_right {α : Type} (a : Option α) : oor a none = a := by
  cases a <;> simp [oor]

theorem pvGet_dictUpdate {α : Type} (l : List (String × α)) (k : String)
    (v : α) (k1 : String) :
    pvGet (dictUpdate l k v) k1 = if k = k1 then some v else pvGet l k1 := by
  induction l with
  | nil => simp [dictUpdate, pvGet]
  | cons p t ih =>
      obtain ⟨k0, v0⟩ := p
      by_cases h0 : k0 = k
      · subst h0
        rw [dictUpdate, if_pos rfl]
        by_cases h1 : k0 = k1 <;> simp [pvGet, h1]
      · rw [dictUpdate, if_neg h0]
        by_cases h1 : k0 = k1
        · subst h1
          have hne : ¬k = k0 := fun e => h0 e.symm
          simp [pvGet, hne]
        · simp [pvGet, h1, ih]

theorem pvGet_dictFold {α : Type} (l : List (String × α))
    (d0 : List (String × α)) (k : String) :
    pvGet (dictFold d0 l) k = oor (lastOf l k) (pvGet d0 k) := by
  induction l generalizing d0 with
  | nil => simp [dictFold, lastOf, oor]
  | cons p t ih =>
      have step : dictFold d0 (p :: t) = dictFold (dictUpdate d0 p.1 p.2) t := by
        simp [dictFold]
      rw [step, ih, lastOf, oor_assoc, pvGet_dictUpdate]
      by_cases h : p.1 = k <;> simp [h, oor]

theorem lastOf_eq_none_of_not_mem {α : Type} (l : List (String × α))
    (k : String) (h : k ∉ l.map Prod.fst) : lastOf l k = none := by
  induction l with
  | nil => rfl
  | cons p t ih =>
      have h1 : ¬k = p.1 := fun e => h (by simp [e])
      have h2 : k ∉ t.map Prod.fst := fun e => h (by simp [e])
      rw [lastOf, ih h2, if_neg fun e => h1 e.symm]
      rfl

theorem lastOf_eq_pvGet_of_nodup {α : Type} (l : List (String × α))
    (k : String) (h : (l.map Prod.fst).Nodup) : lastOf l k = pvGet l k := by
  induction l with
  | nil => rfl
  | cons p t ih =>
      simp only [List.map_cons, List.nodup_cons] at h
      by_cases hk : p.1 = k
      · subst hk
        rw [lastOf, lastOf_eq_none_of_not_mem t p.1 h.1]
        obtain ⟨k0, v0⟩ := p
        simp [pvGet, oor]
      · rw [lastOf, ih h.2]
        obtain ⟨k0, v0⟩ := p
        simp [pvGet, hk, oor_none_right]

theorem lastOf_of_nodup_mem {α : Type} (l : List (String × α)) (k : String)
    (v : α) (hnd : (l.map Prod.fst).Nodup) (hm : (k, v) ∈ l) :
    lastOf l k = some v := by
  induction l with
  | nil => cases hm
  | cons p t ih =>
      simp only [List.map_cons, List.nodup_cons] at hnd
      rcases List.mem_cons.mp hm with h | h
      · subst h
        rw [lastOf, lastOf_eq_none_of_not_mem t k hnd.1, if_pos rfl]
        rfl
      · rw [lastOf, ih hnd.2 h]
        rfl

theorem dictUpdate_keys {α : Type} (l : List (String × α)) (k : String)
    (v : α) :
    (dictUpdate l k v).map Prod.fst =
      if k ∈ l.map Prod.fst then l.map Prod.fst else l.map Prod.fst ++ [k] := by
  induction l with
  | nil => simp [dictUpdate]
  | cons p t ih =>
      obtain ⟨k0, v0⟩ := p
      by_cases h0 : k0 = k
      · subst h0
        simp [dictUpdate]
      · have hne : ¬k = k0 := fun e => h0 e.symm
        by_cases hm : k ∈ t.map Prod.fst
        · simp [dictUpdate, h0, ih, hm, hne]
        · simp [dictUpdate, h0, ih, hm, hne]

theorem dictUpdate_keys_nodup {α : Type} (l : List (String × α)) (k : String)
    (v : α) (h : (l.map Prod.fst).Nodup) :
    ((dictUpdate l k v).map Prod.fst).Nodup := by
  rw [dictUpdate_keys]
  by_cases hm : k ∈ l.map Prod.fst
  · simpa [hm] using h
  · rw [if_neg hm]
    simpa [List.nodup_append, hm] using h

theorem dictFold_keys_nodup {α : Type} (l : List (String × α))
    (d0 : List (String × α)) (h : (d0.map Prod.fst).Nodup) :
    ((dictFold d0 l).map Prod.fst).Nodup := by
  induction l generalizing d0 with
  | nil => simpa [dictFold] using h
  | cons p t ih =>
      have step : dictFold d0 (p :: t) = dictFold (dictUpdate d0 p.1 p.2) t := by
        simp [dictFold]
      rw [step]
      exact ih _ (dictUpdate_keys_nodup d0 p.1 p.2 h)

/-! ### Lemmas about the sorted enumeration of a string set -/

theorem sortFinset_sorted (s : Finset String) :
    List.Sorted (· ≤ ·) (sortFinset s) := by
  obtain ⟨m, hnd⟩ := s
  induction m using Quotient.inductionOn with
  | h l => exact insSortStr_sorted l

theorem sortFinset_coe (s : Finset String) :
    (sortFinset s : Multiset String) = s.val := by
  obtain ⟨m, hnd⟩ := s
  induction m using Quotient.inductionOn with
  | h l => exact Quot.sound (insSortStr_perm l)

theorem mem_sortFinset (s : Finset String) (v : String) :
    v ∈ sortFinset s ↔ v ∈ s := by
  rw [← Multiset.mem_coe, sortFinset_coe]
  rfl

theorem sortFinset_nodup (s : Finset String) : (sortFinset s).Nodup := by
  have := s.nodup
  rwa [← sortFinset_coe, Multiset.coe_nodup] at this

theorem sortFinset_sorted_lt (s : Finset String) :
    List.Sorted (· < ·) (sortFinset s) :=
  (sortFinset_sorted s).lt_of_le (sortFinset_nodup s)

theorem sortFinset_empty : sortFinset ∅ = [] := rfl

theorem sortFinset_eq_nil (s : Finset String) (h : s = ∅) :
    sortFinset s = [] := by
  rw [h]; rfl

theorem sortFinset_singleton (a : String) : sortFinset {a} = [a] := rfl

theorem sortFinset_count (s : Finset String) (v : String) :
    (sortFinset s).count v = if v ∈ s then 1 else 0 := by
  by_cases h : v ∈ s
  · rw [if_pos h]
    exact List.count_eq_one_of_mem (sortFinset_nodup s)
      ((mem_sortFinset s v).mpr h)
  · rw [if_neg h]
    exact List.count_eq_zero_of_not_mem
      (fun hm => h ((mem_sortFinset s v).mp hm))

/-! ### Characterization of the check cycle -/

namespace Monitor

theorem checkLoop_fst (pv : List (String × Finset String)) (fcd : Bool)
    (rows : List Row) (dict : List (String × RowData)) :
    (checkLoop pv fcd dict rows).1 = dictFold dict (rows.filterMap parseRow) := by
  induction rows generalizing dict with
  | nil => simp [checkLoop, dictFold]
  | cons r rest ih =>
      cases hp : parseRow r with
      | none => simp [checkLoop, hp, ih, List.filterMap_cons, dictFold]
      | some p =>
          obtain ⟨k, dta⟩ := p
          simp only [checkLoop, hp, ih, List.filterMap_cons]
          simp [dictFold]

theorem checkLoop_snd_false (pv : List (String × Finset String))
    (rows : List Row) (dict : List (String × RowData)) :
    (checkLoop pv false dict rows).2 = [] := by
  induction rows generalizing dict with
  | nil => simp [checkLoop]
  | cons r rest ih =>
      cases hp : parseRow r with
      | none => simp [checkLoop, hp, ih]
      | some p =>
          obtain ⟨k, dta⟩ := p
          simp [checkLoop, hp, ih]

theorem checkLoop_snd_true (pv : List (String × Finset String))
    (rows : List Row) (dict : List (String × RowData)) :
    (checkLoop pv true dict rows).2 = allRowEvents pv rows := by
  induction rows generalizing dict with
  | nil => simp [checkLoop, allRowEvents]
  | cons r rest ih =>
      cases hp : parseRow r with
      | none => simp [checkLoop, hp, ih, allRowEvents, rowEvents]
      | some p =>
          obtain ⟨k, dta⟩ := p
          by_cases hne : (dta.victors \ (pvGet pv k).getD ∅).Nonempty
          · simp [checkLoop, hp, ih, allRowEvents, rowEvents, hne]
          · have hemp : dta.victors \ (pvGet pv k).getD ∅ = ∅ :=
              Finset.not_nonempty_iff_eq_empty.mp hne
            simp [checkLoop, hp, ih, allRowEvents, rowEvents, hne, hemp,
              sortFinset_empty]

theorem check_none (st : MonitorState) :
    check_for_changes st none = (st, []) := rfl

theorem check_short (st : MonitorState) (d : List Row) (h : d.length < 2) :
    check_for_changes st (some d) = (st, []) := by
  simp [check_for_changes, h]

theorem check_fst_pv (st : MonitorState) (d : List Row) (h : ¬d.length < 2) :
    (check_for_changes st (some d)).1.previous_victors =
      updatePV st.previous_victors
        (checkLoop st.previous_victors st.first_check_done [] d.tail).1 := by
  simp [check_for_changes, h]

theorem check_fst_fcd (st : MonitorState) (d : List Row) (h : ¬d.length < 2) :
    (check_for_changes st (some d)).1.first_check_done = true := by
  simp [check_for_changes, h]

theorem check_snd_of_fcd (st : MonitorState) (d : List Row)
    (h : ¬d.length < 2) (hf : st.first_check_done = true) :
    (check_for_changes st (some d)).2 =
      allRowEvents st.previous_victors d.tail := by
  simp [check_for_changes, h, hf, checkLoop_snd_true]

theorem check_snd_of_not_fcd (st : MonitorState) (d : List Row)
    (h : ¬d.length < 2) (hf : st.first_check_done = false) :
    (check_for_changes st (some d)).2 = [] := by
  simp [check_for_changes, h, hf, checkLoop_snd_false]

theorem updatePV_eq (pv : List (String × Finset String))
    (cur : List (String × RowData)) :
    updatePV pv cur =
      dictFold pv (cur.map (fun p => (p.1, p.2.victors))) := by
  rw [updatePV, dictFold, List.foldl_map]

theorem lastOf_map_victors (cur : List (String × RowData)) (k : String) :
    lastOf (cur.map (fun p => (p.1, p.2.victors))) k =
      (lastOf cur k).map (fun dta => dta.victors) := by
  induction cur with
  | nil => rfl
  | cons p t ih =>
      rw [List.map_cons, lastOf, lastOf, ih]
      cases lastOf t k with
      | some x => simp [oor]
      | none =>
          by_cases hk : p.1 = k <;> simp [oor, hk]

/-- Master lemma: the recorded set for `k` after a successful poll is the
snapshot's observed set for `k` when present, the previous one otherwise. -/
theorem check_pvGet (st : MonitorState) (d : List Row) (h : ¬d.length < 2)
    (k : String) :
    pvGet (check_for_changes st (some d)).1.previous_victors k =
      oor (observedVictors d.tail k) (pvGet st.previous_victors k) := by
  rw [check_fst_pv st d h, updatePV_eq, pvGet_dictFold, lastOf_map_victors,
    checkLoop_fst]
  have hnd : ((dictFold ([] : List (String × RowData))
      (d.tail.filterMap parseRow)).map Prod.fst).Nodup :=
    dictFold_keys_nodup _ [] (by simp)
  rw [lastOf_eq_pvGet_of_nodup _ k hnd, pvGet_dictFold, observedVictors]
  cases lastOf (d.tail.filterMap parseRow) k with
  | none => simp [pvGet, oor]
  | some dta => simp [oor]

end Monitor

namespace Monitor

theorem allRowEvents_eq_nil (pv : List (String × Finset String))
    (rows : List Row) (h : ∀ r ∈ rows, rowEvents pv r = []) :
    allRowEvents pv rows = [] := by
  induction rows with
  | nil => rfl
  | cons r t ih =>
      rw [allRowEvents, h r (List.mem_cons_self r t),
        ih fun r0 hr0 => h r0 (List.mem_cons_of_mem r hr0)]
      rfl

theorem rowEvents_map_victor (pv : List (String × Finset String)) (r : Row) :
    (rowEvents pv r).map Event.victor = sortFinset (rowNewVictors pv r) := by
  cases hp : parseRow r with
  | none => simp [rowEvents, rowNewVictors, hp, sortFinset_empty]
  | some p =>
      obtain ⟨k, dta⟩ := p
      simp only [rowEvents, rowNewVictors, hp, List.map_map]
      have hcomp : (Event.victor ∘ fun v =>
          Event.mk v dta.level_name dta.creators dta.difficulty) =
            fun v => v := rfl
      rw [hcomp]
      exact List.map_id _

theorem count_allRowEvents (pv : List (String × Finset String))
    (rows : List Row) (v : String) :
    ((allRowEvents pv rows).map Event.victor).count v =
      rows.countP (fun r => decide (v ∈ rowNewVictors pv r)) := by
  induction rows with
  | nil => simp [allRowEvents]
  | cons r t ih =>
      rw [allRowEvents, List.map_append, List.count_append, ih,
        List.countP_cons, rowEvents_map_victor, sortFinset_count]
      by_cases hm : v ∈ rowNewVictors pv r <;> simp [hm] <;> omega

end Monitor

/-! ### The claims -/

/-- Claim C1: on a fresh state (baseline flag false), a check cycle whose
snapshot is successfully obtained (header plus at least one row, so the
`len(data) < 2` early return does not fire) emits no events regardless of
the snapshot's contents, and afterwards `first_check_done` is true. -/
theorem c1_baseline_poll_is_silent (st : MonitorState) (d : List Row)
    (hfc : st.first_check_done = false) (h2 : 2 ≤ d.length) :
    (Monitor.check_for_changes st (some d)).2 = []
    ∧ (Monitor.check_for_changes st (some d)).1.first_check_done = true :=
  ⟨Monitor.check_snd_of_not_fcd st d (by omega) hfc,
   Monitor.check_fst_fcd st d (by omega)⟩

theorem c1_baseline_poll_is_silent_witness :
    (Monitor.check_for_changes ⟨[], false⟩
        (some [[], ["k", "L", "c", "1", "", "", "", "", "", "", "a"]])).2 = []
    ∧ (Monitor.check_for_changes ⟨[], false⟩
        (some [[], ["k", "L", "c", "1", "", "", "", "", "", "",
          "a"]])).1.first_check_done = true :=
  c1_baseline_poll_is_silent ⟨[], false⟩
    [[], ["k", "L", "c", "1", "", "", "", "", "", "", "a"]] rfl (by decide)

/-- Claim C2, counterexample: with baseline established and empty recorded
state, a snapshot containing two rows with the same level id "k" — the
first listing victor "a", the second listing none — yields an event for
"a" on the *second* processing of the identical snapshot, because the
second duplicate row overwrote the recorded set with the empty set. -/
theorem c2_idempotence_counterexample :
    (Monitor.check_for_changes
        (Monitor.check_for_changes ⟨[], true⟩
          (some [[], ["k", "L", "c", "1", "", "", "", "", "", "", "a"],
            ["k", "L", "c", "1", "", "", "", "", "", "", ""]])).1
        (some [[], ["k", "L", "c", "1", "", "", "", "", "", "", "a"],
          ["k", "L", "c", "1", "", "", "", "", "", "", ""]])).2 ≠ [] := by
  decide

/-- Claim C2 (amended): with baseline established, feeding the same
snapshot twice in a row yields zero events on the second call, provided
no level id occurs in more than one (non-skipped) row of the snapshot. -/
theorem c2_idempotent_on_nodup_keys (st : MonitorState) (d : List Row)
    (hfc : st.first_check_done = true)
    (hnd : ((d.tail.filterMap Monitor.parseRow).map Prod.fst).Nodup) :
    (Monitor.check_for_changes
      (Monitor.check_for_changes st (some d)).1 (some d)).2 = [] := by
  by_cases hlen : d.length < 2
  · simp [Monitor.check_short st d hlen]
  · have hf1 := Monitor.check_fst_fcd st d hlen
    rw [Monitor.check_snd_of_fcd _ d hlen hf1]
    apply Monitor.allRowEvents_eq_nil
    intro r hr
    cases hp : Monitor.parseRow r with
    | none => simp [Monitor.rowEvents, hp]
    | some p =>
        obtain ⟨k, dta⟩ := p
        have hmem : (k, dta) ∈ d.tail.filterMap Monitor.parseRow :=
          List.mem_filterMap.mpr ⟨r, hr, hp⟩
        have hobs : Monitor.observedVictors d.tail k = some dta.victors := by
          rw [Monitor.observedVictors,
            lastOf_of_nodup_mem _ k dta hnd hmem]
          rfl
        have hpv : pvGet (Monitor.check_for_changes st
            (some d)).1.previous_victors k = some dta.victors := by
          rw [Monitor.check_pvGet st d hlen k, hobs]
          rfl
        simp [Monitor.rowEvents, hp, hpv, Finset.sdiff_self,
          sortFinset_empty]

theorem c2_idempotent_on_nodup_keys_witness :
    (Monitor.check_for_changes
      (Monitor.check_for_changes ⟨[], true⟩
        (some [[], ["k", "L", "c", "1", "", "", "", "", "", "", "a"]])).1
      (some [[], ["k", "L", "c", "1", "", "", "", "", "", "", "a"]])).2 = [] :=
  c2_idempotent_on_nodup_keys ⟨[], true⟩
    [[], ["k", "L", "c", "1", "", "", "", "", "", "", "a"]] rfl (by decide)

/-- Claim C4: after a fully successful poll, the recorded Achiever Set of
every level present in the snapshot equals the set the snapshot observes
for it (the last matching row's parsed victor set — wholesale
replacement), while a level absent from the snapshot keeps its previously
recorded set (no deletion). -/
theorem c4_state_replacement_and_frame (st : MonitorState) (d : List Row)
    (h2 : 2 ≤ d.length) (k : String) (V : Finset String) :
    (Monitor.observedVictors d.tail k = some V →
      pvGet (Monitor.check_for_changes st
        (some d)).1.previous_victors k = some V)
    ∧ (Monitor.observedVictors d.tail k = none →
      pvGet (Monitor.check_for_changes st
          (some d)).1.previous_victors k = pvGet st.previous_victors k) := by
  constructor
  · intro hobs
    rw [Monitor.check_pvGet st d (by omega) k, hobs]
    rfl
  · intro hobs
    rw [Monitor.check_pvGet st d (by omega) k, hobs]
    rfl

theorem c4_state_replacement_and_frame_witness :
    pvGet (Monitor.check_for_changes
        ⟨[("j", Monitor.parseVictors "z")], true⟩
        (some [[], ["k", "L", "c", "1", "", "", "", "", "", "",
          "a"]])).1.previous_victors "k" = some (Monitor.parseVictors "a")
    ∧ pvGet (Monitor.check_for_changes
        ⟨[("j", Monitor.parseVictors "z")], true⟩
        (some [[], ["k", "L", "c", "1", "", "", "", "", "", "",
          "a"]])).1.previous_victors "j" =
      pvGet [("j", Monitor.parseVictors "z")] "j" :=
  ⟨(c4_state_replacement_and_frame ⟨[("j", Monitor.parseVictors "z")], true⟩
      [[], ["k", "L", "c", "1", "", "", "", "", "", "", "a"]] (by decide)
      "k" (Monitor.parseVictors "a")).1 (by decide),
   (c4_state_replacement_and_frame ⟨[("j", Monitor.parseVictors "z")], true⟩
      [[], ["k", "L", "c", "1", "", "", "", "", "", "", "a"]] (by decide)
      "j" (Monitor.parseVictors "a")).2 (by decide)⟩

/-- Claim C5: when the upstream snapshot cannot be obtained or parsed
(`fetch_sheet_data` returns no data), the check cycle returns with the
whole Achievement State — every recorded set and the baseline flag —
unchanged and no events emitted. -/
theorem c5_fetch_failure_leaves_state (st : MonitorState) :
    Monitor.check_for_changes st none = (st, []) := rfl

/-- Claim C3: with baseline established, (i) if a level's victor set grows
from `{a}` to `{a, b}` between two polls of single-row snapshots, the
second poll emits exactly one event, for `b`; (ii) in any poll, the
victors of the emitted events of a row are exactly the sorted enumeration
of its new-victor set — one event per new victor, strictly ascending in
the lexicographic string order. -/
theorem c3_growth_and_lexicographic_order (st : MonitorState)
    (hfc : st.first_check_done = true) (h1 h2 r1 r2 : Row) (E : String)
    (dta1 dta2 : RowData) (a b : String)
    (hp1 : Monitor.parseRow r1 = some (E, dta1))
    (hp2 : Monitor.parseRow r2 = some (E, dta2))
    (hv1 : dta1.victors = {a}) (hv2 : dta2.victors = {a, b}) (hab : b ≠ a)
    (st' : MonitorState) (h' r' : Row) (k' : String) (dta' : RowData)
    (hfc' : st'.first_check_done = true)
    (hp' : Monitor.parseRow r' = some (k', dta')) :
    (Monitor.check_for_changes (Monitor.check_for_changes st
        (some [h1, r1])).1 (some [h2, r2])).2 =
      [⟨b, dta2.level_name, dta2.creators, dta2.difficulty⟩]
    ∧ (Monitor.check_for_changes st' (some [h', r'])).2.map Event.victor =
      sortFinset (dta'.victors \ (pvGet st'.previous_victors k').getD ∅)
    ∧ List.Sorted (· < ·)
      ((Monitor.check_for_changes st' (some [h', r'])).2.map Event.victor) := by
  have hlen1 : ¬([h1, r1] : List Row).length < 2 := by simp
  have hlen2 : ¬([h2, r2] : List Row).length < 2 := by simp
  refine ⟨?_, ?_, ?_⟩
  · have hf1 := Monitor.check_fst_fcd st [h1, r1] hlen1
    rw [Monitor.check_snd_of_fcd _ [h2, r2] hlen2 hf1]
    have hobs : Monitor.observedVictors [r1] E = some dta1.victors := by
      simp [Monitor.observedVictors, List.filterMap, hp1, lastOf, oor]
    have hpv : pvGet (Monitor.check_for_changes st
        (some [h1, r1])).1.previous_victors E = some dta1.victors := by
      rw [Monitor.check_pvGet st [h1, r1] hlen1 E]
      simp only [List.tail_cons]
      rw [hobs]
      rfl
    have hdiff : dta2.victors \ dta1.victors = {b} := by
      rw [hv1, hv2]
      ext x
      simp only [Finset.mem_sdiff, Finset.mem_insert, Finset.mem_singleton]
      constructor
      · rintro ⟨h | h, hx⟩
        · exact absurd h hx
        · exact h
      · rintro rfl
        exact ⟨Or.inr rfl, hab⟩
    show Monitor.allRowEvents _ [r2] = _
    rw [Monitor.allRowEvents, Monitor.allRowEvents]
    simp only [Monitor.rowEvents, hp2, hpv, Option.getD_some, hdiff,
      sortFinset_singleton, List.map_cons, List.map_nil, List.append_nil]
  · rw [Monitor.check_snd_of_fcd st' [h', r'] (by simp) hfc']
    simp only [List.tail_cons]
    rw [Monitor.allRowEvents, Monitor.allRowEvents, List.append_nil,
      Monitor.rowEvents_map_victor, Monitor.rowNewVictors, hp']
  · rw [Monitor.check_snd_of_fcd st' [h', r'] (by simp) hfc']
    simp only [List.tail_cons]
    rw [Monitor.allRowEvents, Monitor.allRowEvents, List.append_nil,
      Monitor.rowEvents_map_victor]
    exact sortFinset_sorted_lt _

theorem c3_growth_and_lexicographic_order_witness :
    (Monitor.check_for_changes (Monitor.check_for_changes ⟨[], true⟩
        (some [[], ["k", "", "", "", "", "", "", "", "", "", "a"]])).1
        (some [[], ["k", "", "", "", "", "", "", "", "", "", "a, b"]])).2 =
      [⟨"b", "", "", ""⟩]
    ∧ (Monitor.check_for_changes ⟨[], true⟩
        (some [[], ["k", "", "", "", "", "", "", "", "", "",
          "a, b"]])).2.map Event.victor =
      sortFinset ((⟨Monitor.parseVictors "a, b", "", "", ""⟩ :
          RowData).victors \ (pvGet ([] : List (String × Finset String))
            "k").getD ∅)
    ∧ List.Sorted (· < ·) ((Monitor.check_for_changes ⟨[], true⟩
        (some [[], ["k", "", "", "", "", "", "", "", "", "",
          "a, b"]])).2.map Event.victor) :=
  c3_growth_and_lexicographic_order ⟨[], true⟩ rfl
    [] [] ["k", "", "", "", "", "", "", "", "", "", "a"]
    ["k", "", "", "", "", "", "", "", "", "", "a, b"] "k"
    ⟨Monitor.parseVictors "a", "", "", ""⟩
    ⟨Monitor.parseVictors "a, b", "", "", ""⟩ "a" "b" rfl rfl
    (by decide) (by decide) (by decide)
    ⟨[], true⟩ [] ["k", "", "", "", "", "", "", "", "", "", "a, b"] "k"
    ⟨Monitor.parseVictors "a, b", "", "", ""⟩ rfl rfl

/-- Claim C9: with baseline established, if a victor `x` is removed from
level `E`'s set (otherwise unchanged) in one successful poll and reappears
in the next, the first poll emits nothing and the second poll emits an
event for `x` again — the state holds only the latest snapshot. -/
theorem c9_removed_then_readded_renotified (st : MonitorState)
    (hfc : st.first_check_done = true) (h1 h2 r1 r2 : Row) (E : String)
    (dta1 dta2 : RowData) (x : String) (V : Finset String)
    (hp1 : Monitor.parseRow r1 = some (E, dta1))
    (hv1 : dta1.victors = V.erase x)
    (hp2 : Monitor.parseRow r2 = some (E, dta2)) (hv2 : dta2.victors = V)
    (hx : x ∈ V) (hprev : pvGet st.previous_victors E = some V) :
    (Monitor.check_for_changes st (some [h1, r1])).2 = []
    ∧ (Monitor.check_for_changes (Monitor.check_for_changes st
        (some [h1, r1])).1 (some [h2, r2])).2 =
      [⟨x, dta2.level_name, dta2.creators, dta2.difficulty⟩] := by
  have hlen1 : ¬([h1, r1] : List Row).length < 2 := by simp
  have hlen2 : ¬([h2, r2] : List Row).length < 2 := by simp
  constructor
  · rw [Monitor.check_snd_of_fcd st [h1, r1] hlen1 hfc]
    simp only [List.tail_cons]
    rw [Monitor.allRowEvents, Monitor.allRowEvents, List.append_nil]
    have hsub : dta1.victors \ (pvGet st.previous_victors E).getD ∅ = ∅ := by
      rw [hprev, hv1]
      exact Finset.sdiff_eq_empty_iff_subset.mpr (Finset.erase_subset x V)
    simp [Monitor.rowEvents, hp1, hsub, sortFinset_empty]
  · have hf1 := Monitor.check_fst_fcd st [h1, r1] hlen1
    rw [Monitor.check_snd_of_fcd _ [h2, r2] hlen2 hf1]
    have hobs : Monitor.observedVictors [r1] E = some dta1.victors := by
      simp [Monitor.observedVictors, List.filterMap, hp1, lastOf, oor]
    have hpv : pvGet (Monitor.check_for_changes st
        (some [h1, r1])).1.previous_victors E = some dta1.victors := by
      rw [Monitor.check_pvGet st [h1, r1] hlen1 E]
      simp only [List.tail_cons]
      rw [hobs]
      rfl
    have hdiff : dta2.victors \ dta1.victors = {x} := by
      rw [hv1, hv2]
      ext y
      simp only [Finset.mem_sdiff, Finset.mem_erase, Finset.mem_singleton]
      constructor
      · rintro ⟨hy, hne⟩
        by_contra hyx
        exact hne ⟨hyx, hy⟩
      · rintro rfl
        exact ⟨hx, fun hc => hc.1 rfl⟩
    simp only [List.tail_cons]
    rw [Monitor.allRowEvents, Monitor.allRowEvents, List.append_nil]
    simp only [Monitor.rowEvents, hp2, hpv, Option.getD_some, hdiff,
      sortFinset_singleton, List.map_cons, List.map_nil]

theorem c9_removed_then_readded_renotified_witness :
    (Monitor.check_for_changes ⟨[("k", Monitor.parseVictors "a, b")], true⟩
        (some [[], ["k", "", "", "", "", "", "", "", "", "", "a"]])).2 = []
    ∧ (Monitor.check_for_changes (Monitor.check_for_changes
        ⟨[("k", Monitor.parseVictors "a, b")], true⟩
        (some [[], ["k", "", "", "", "", "", "", "", "", "", "a"]])).1
        (some [[], ["k", "", "", "", "", "", "", "", "", "", "a, b"]])).2 =
      [⟨"b", "", "", ""⟩] :=
  c9_removed_then_readded_renotified
    ⟨[("k", Monitor.parseVictors "a, b")], true⟩ rfl [] []
    ["k", "", "", "", "", "", "", "", "", "", "a"]
    ["k", "", "", "", "", "", "", "", "", "", "a, b"] "k"
    ⟨Monitor.parseVictors "a", "", "", ""⟩
    ⟨Monitor.parseVictors "a, b", "", "", ""⟩ "b"
    (Monitor.parseVictors "a, b") rfl (by decide) rfl (by decide)
    (by decide) (by decide)

/-- Claim C10: when the same level id occurs in several rows of one
snapshot, every row's diff is taken against the pre-poll recorded state
(events are the concatenation of the per-row diffs against it, and a
victor new in `n` rows yields `n` events in the cycle), while the
recorded set afterwards is the one the snapshot observes last for that
id (last writer wins). -/
theorem c10_duplicate_rows_diff_prepoll (st : MonitorState)
    (hfc : st.first_check_done = true) (h : Row) (rows : List Row)
    (k : String) (V : Finset String) (v : String)
    (hobs : Monitor.observedVictors rows k = some V) :
    (Monitor.check_for_changes st (some (h :: rows))).2 =
      Monitor.allRowEvents st.previous_victors rows
    ∧ ((Monitor.check_for_changes st
        (some (h :: rows))).2.map Event.victor).count v =
      rows.countP (fun r =>
        decide (v ∈ Monitor.rowNewVictors st.previous_victors r))
    ∧ pvGet (Monitor.check_for_changes st
        (some (h :: rows))).1.previous_victors k = some V := by
  have hne : rows ≠ [] := by
    rintro rfl
    simp [Monitor.observedVictors, lastOf] at hobs
  have hlen : ¬(h :: rows).length < 2 := by
    have := List.length_pos.mpr hne
    simp only [List.length_cons]
    omega
  have hev : (Monitor.check_for_changes st (some (h :: rows))).2 =
      Monitor.allRowEvents st.previous_victors rows := by
    rw [Monitor.check_snd_of_fcd st (h :: rows) hlen hfc]
    rfl
  refine ⟨hev, ?_, ?_⟩
  · rw [hev, Monitor.count_allRowEvents]
  · rw [Monitor.check_pvGet st (h :: rows) hlen k]
    simp only [List.tail_cons]
    rw [hobs]
    rfl

theorem c10_duplicate_rows_diff_prepoll_witness :
    (Monitor.check_for_changes ⟨[], true⟩
        (some [[], ["k", "", "", "", "", "", "", "", "", "", "a"],
          ["k", "", "", "", "", "", "", "", "", "", "a, b"]])).2 =
      Monitor.allRowEvents []
        [["k", "", "", "", "", "", "", "", "", "", "a"],
         ["k", "", "", "", "", "", "", "", "", "", "a, b"]]
    ∧ ((Monitor.check_for_changes ⟨[], true⟩
        (some [[], ["k", "", "", "", "", "", "", "", "", "", "a"],
          ["k", "", "", "", "", "", "", "", "", "",
            "a, b"]])).2.map Event.victor).count "a" =
      List.countP (fun r =>
        decide ("a" ∈ Monitor.rowNewVictors [] r))
        [["k", "", "", "", "", "", "", "", "", "", "a"],
         ["k", "", "", "", "", "", "", "", "", "", "a, b"]]
    ∧ pvGet (Monitor.check_for_changes ⟨[], true⟩
        (some [[], ["k", "", "", "", "", "", "", "", "", "", "a"],
          ["k", "", "", "", "", "", "", "", "", "",
            "a, b"]])).1.previous_victors "k" =
      some (Monitor.parseVictors "a, b") :=
  c10_duplicate_rows_diff_prepoll ⟨[], true⟩ rfl []
    [["k", "", "", "", "", "", "", "", "", "", "a"],
     ["k", "", "", "", "", "", "", "", "", "", "a, b"]] "k"
    (Monitor.parseVictors "a, b") "a" (by decide)

/-- Claim C6, counterexample: "N/A" is not a named tier and fails the
numeric parse, yet `get_difficulty_emoji` (both entry points) returns
"n/a" — the stripped, lowercased text — not the original input "N/A". -/
theorem c6_fallback_counterexample :
    pvGet Monitor.DIFFICULTY_EMOJI_MAP (strToLower (strTrim "N/A")) = none
    ∧ pvGet SendManual.DIFFICULTY_EMOJI_MAP
        (strToLower (strTrim "N/A")) = none
    ∧ parseFloatQ (strToLower (strTrim "N/A")) = none
    ∧ Monitor.get_difficulty_emoji "N/A" ≠ "N/A"
    ∧ SendManual.get_difficulty_emoji "N/A" ≠ "N/A" := by
  decide

/-- Claim C6 (amended): for every difficulty input that (after
normalization) is not a named tier and fails the numeric parse, both tier
classifiers return the *normalized* (stripped, lowercased) input text as
the tier token — not the original, untransformed input. -/
theorem c6_fallback_returns_normalized (s : String)
    (hm : pvGet Monitor.DIFFICULTY_EMOJI_MAP (strToLower (strTrim s)) = none)
    (hsm : pvGet SendManual.DIFFICULTY_EMOJI_MAP
      (strToLower (strTrim s)) = none)
    (hp : parseFloatQ (strToLower (strTrim s)) = none) :
    Monitor.get_difficulty_emoji s = strToLower (strTrim s)
    ∧ SendManual.get_difficulty_emoji s = strToLower (strTrim s) := by
  constructor
  · simp [Monitor.get_difficulty_emoji, hm, hp]
  · simp [SendManual.get_difficulty_emoji, hsm, hp]

theorem c6_fallback_returns_normalized_witness :
    Monitor.get_difficulty_emoji "N/A" = strToLower (strTrim "N/A")
    ∧ SendManual.get_difficulty_emoji "N/A" = strToLower (strTrim "N/A") :=
  c6_fallback_returns_normalized "N/A" (by decide) (by decide) (by decide)

/-- Claim C7: for every numeric difficulty value (an input that is not a
named tier and parses to `q`), the monitor's classifier returns the tier
of the first threshold in its ascending table that `q` is strictly below
(so a value exactly at a boundary falls to the tier above it), and any
value at or above the highest threshold 9.5 gets the top tier. -/
theorem c7_numeric_threshold_selection (s : String) (q : ℚ)
    (hm : pvGet Monitor.DIFFICULTY_EMOJI_MAP (strToLower (strTrim s)) = none)
    (hp : parseFloatQ (strToLower (strTrim s)) = some q) :
    Monitor.get_difficulty_emoji s =
      specSelectTier monitorTierTable grandmasterEmoji q
    ∧ (mkRat 19 2 ≤ q →
      Monitor.get_difficulty_emoji s = grandmasterEmoji) := by
  have hg : Monitor.get_difficulty_emoji s = Monitor.numericEmoji q := by
    simp [Monitor.get_difficulty_emoji, hm, hp]
  constructor
  · rw [hg]
    simp only [Monitor.numericEmoji, monitorTierTable, specSelectTier]
  · intro h
    rw [hg, Monitor.numericEmoji]
    repeat
      rw [if_neg (not_lt.mpr (le_trans
        (by simp only [Rat.mkRat_eq_div]; norm_num) h))]

theorem c7_numeric_threshold_selection_witness :
    Monitor.get_difficulty_emoji "10" = grandmasterEmoji :=
  (c7_numeric_threshold_selection "10" (mkRat 10 1) (by decide)
    (by decide)).2
    (by rw [Rat.mkRat_eq_div, Rat.mkRat_eq_div]; norm_num)

/-- Claim C8: the two entry points' tier classifiers are not equivalent —
on the numeric input "0.5" the monitor returns the easy tier token while
the manual sender returns the effortless tier token, because the two
threshold tables differ. -/
theorem c8_classifiers_differ :
    Monitor.get_difficulty_emoji "0.5" ≠
      SendManual.get_difficulty_emoji "0.5" := by
  decide
